import Mathlib

/-
  Shallow embedding of the core of `src/git-manager.py` (class GitHubAPIManager):
  the HTTP transport (`make_request`), the pagination loops (`list_repos`,
  `list_teams`, the member-collection loop of `get_user_from_email`), the
  identity resolver (`get_user_from_email`, `validate_user_input`) and the
  access resolver (`get_user_repo_access`).

  Modelling conventions:
  * JSON values are the inductive `Json`; Python truthiness, the `in`
    operator, `dict.get`, indexing, `str()` and `.lower()` are modelled by
    total Lean functions.  Accesses that would raise a `TypeError`/`KeyError`
    in Python (indexing a non-object, iterating a number, ...) are given a
    harmless junk value; every theorem below confines itself to well-shaped
    responses, on which the model agrees with the Python code exactly.
  * The network is an oracle `World` mapping an endpoint to an `HttpOutcome`
    (a connection-level exception, or a status code with a body that is
    empty, non-JSON, or parsed JSON).  All embedded calls are GETs: every
    call reached from the identity/access resolvers passes method "GET",
    so only the GET branch of `make_request` is embedded.
  * `make_request` returns `Except ReqError Json`: the Python function
    returns the parsed value on success and `None` on every failure path
    (printing a diagnostic); the `ReqError` value records exactly the
    information of the printed diagnostic.  `mr` is the `Option` view seen
    by the callers (`None` vs a value).
  * The unbounded `while True` pagination loops are modelled with an
    explicit `fuel` bound on the number of pages inspected; theorems
    assume the loop terminates within `fuel` pages.
  * `get_user_repo_access` appends, per repository, a formatted string
    built from the repo name, the access path and the permission.  We
    embed the loop body as producing the structured `Grant` it formats
    (`Grant.render` reproduces the exact string), and instrument it with
    the list of endpoints it requested, so that claims about which lookups
    are consulted are statable.
-/

namespace GitManager

/-- JSON values as produced by `response.json()`. -/
inductive Json where
  | null : Json
  | bool : Bool → Json
  | num : Int → Json
  | str : String → Json
  | arr : List Json → Json
  | obj : List (String × Json) → Json

/-- Python truthiness of a JSON value (`if response:` / `if org:`): `None`,
`False`, `0`, `""`, `[]` and `{}` are falsy, everything else truthy. -/
def Json.isTruthy : Json → Bool
  | .null => false
  | .bool b => b
  | .num n => !(n == 0)
  | .str s => !(s == "")
  | .arr xs => !xs.isEmpty
  | .obj fs => !fs.isEmpty

/-- Python `d[k]` on a JSON value.  On an object it returns the first
binding of `k`.  A missing key raises `KeyError` in Python and indexing a
non-object raises `TypeError`; both are junk-modelled as `Json.null` and
are not exercised by any theorem below. -/
def Json.idx (j : Json) (k : String) : Json :=
  match j with
  | .obj fs =>
    match fs.find? (fun p => p.1 == k) with
    | some p => p.2
    | none => .null
  | _ => .null

/-- Python `d.get(k)` (default `None`): `some` the value when `j` is an
object containing `k`, otherwise `none`.  (`get` on a non-dict raises in
Python; junk-modelled as `none`.) -/
def Json.getVal (j : Json) (k : String) : Option Json :=
  match j with
  | .obj fs => (fs.find? (fun p => p.1 == k)).map (fun p => p.2)
  | _ => none

/-- Python `k in j` for a string `k`: key membership for dicts, element
equality for lists, substring test for strings.  (`in` on numbers raises
in Python; junk-modelled as `false`.) -/
def pyIn (k : String) (j : Json) : Bool :=
  match j with
  | .obj fs => fs.any (fun p => p.1 == k)
  | .arr xs => xs.any (fun x => match x with | .str s => s == k | _ => false)
  | .str s => !((s.splitOn k).length == 1)
  | _ => false

/-- Python `str()` of a JSON value, as used by f-string interpolation.
Exercised only on strings (and `None`) in the theorems below; the
representations of containers are junk-modelled. -/
def Json.pyStr : Json → String
  | .null => "None"
  | .bool true => "True"
  | .bool false => "False"
  | .num n => toString n
  | .str s => s
  | .arr _ => "<list>"
  | .obj _ => "<dict>"

/-- Python `s.lower()`, as the list of lowered characters (two strings are
equal iff their character lists are, so comparing lowered character lists
is comparing lowered strings). -/
def lowerChars (s : String) : List Char :=
  s.data.map Char.toLower

/-- Python `v.lower()` for a JSON value known to be a string (`.lower()` on
a non-string raises in Python; junk-modelled as `[]`). -/
def Json.pyLower : Json → List Char
  | .str s => lowerChars s
  | _ => []

/-- Python `list.extend(j)`: the sequence of elements `j` contributes.
Lists contribute their elements, dicts their keys, strings their
characters; extending with a number raises in Python (junk-modelled
as no elements). -/
def Json.toElems : Json → List Json
  | .arr xs => xs
  | .obj fs => fs.map (fun p => Json.str p.1)
  | .str s => s.data.map (fun c => Json.str (String.mk [c]))
  | _ => []

/-- Truthiness of an optional JSON value (Python `x and ...` where `x` may
be `None`). -/
def optTruthy : Option Json → Bool
  | none => false
  | some j => j.isTruthy

/-- Body of an HTTP response: empty (`response.text` falsy), non-empty but
not JSON-parseable, or parsed JSON. -/
inductive Body where
  | empty : Body
  | junk : Body
  | jsonBody : Json → Body

/-- Outcome of one HTTP round-trip: a `requests` exception (connection
error, timeout) with its description, or a response with a status code
and a body. -/
inductive HttpOutcome where
  | exn : String → HttpOutcome
  | resp : Nat → Body → HttpOutcome

/-- The network oracle: what the server answers on each GET endpoint.
It is a pure function, so repeated identical requests agree. -/
structure World where
  fetch : String → HttpOutcome

/-- The information content of the diagnostic printed on each failure
path of `make_request` (the Python function then returns `None`). -/
inductive ReqError where
  | apiError : Nat → String → ReqError
  | requestFailed : String → ReqError
  | invalidJson : ReqError

/-- Line 43: `response.status_code not in [200, 201, 204]`, negated. -/
def success_status (s : Nat) : Bool :=
  s == 200 || s == 201 || s == 204

/-- Line 44: `response.json().get('message', 'Unknown error')`.  (`get` on
a non-dict error body raises in Python; junk-modelled by the default.) -/
def json_message (j : Json) : String :=
  match j with
  | .obj fs =>
    match fs.find? (fun p => p.1 == "message") with
    | some p => Json.pyStr p.2
    | none => "Unknown error"
  | _ => "Unknown error"

/-- Lines 27-55, `make_request` (GET branch).  Success statuses return the
parsed body, or `{}` when the body is empty; any other status yields the
`API Error (status): msg` diagnostic, where the message is the body's
`message` field, `'Unknown error'` if the JSON body lacks one, and
`'No response'` when the body is empty; a `requests` exception yields the
`Request failed` diagnostic; a non-JSON body makes `response.json()` raise,
which lands in one of the two `except` handlers (both return `None`). -/
def make_request (w : World) (endpoint : String) : Except ReqError Json :=
  match w.fetch endpoint with
  | .exn d => .error (.requestFailed d)
  | .resp status body =>
    if success_status status then
      match body with
      | .empty => .ok (Json.obj [])
      | .jsonBody j => .ok j
      | .junk => .error .invalidJson
    else
      match body with
      | .empty => .error (.apiError status "No response")
      | .jsonBody j => .error (.apiError status (json_message j))
      | .junk => .error .invalidJson

/-- The view of `make_request` seen by all callers: the parsed value, or
`None` on any failure. -/
def mr (w : World) (endpoint : String) : Option Json :=
  (make_request w endpoint).toOption

/-- The paginated endpoint for one page: `f"{base}?page={page}&per_page=100"`. -/
def pageEndpoint (base : String) (page : Nat) : String :=
  base ++ "?page=" ++ toString page ++ "&per_page=100"

/-- The `while True` pagination loop shared by `list_teams` (lines 64-76),
`list_repos` (lines 78-90) and the member loop of `get_user_from_email`
(lines 190-197): fetch page `page`, stop on `None` (transport failure) or
on a falsy (empty) page, otherwise extend and continue with `page + 1`.
`fuel` bounds the number of pages inspected. -/
def collectPages (w : World) (base : String) : Nat → Nat → List Json
  | 0, _ => []
  | fuel + 1, page =>
    match mr w (pageEndpoint base page) with
    | none => []
    | some r => if r.isTruthy then r.toElems ++ collectPages w base fuel (page + 1) else []

/-- Lines 78-90: `list_repos`. -/
def list_repos (w : World) (fuel : Nat) (org : String) : List Json :=
  collectPages w ("/orgs/" ++ org ++ "/repos") fuel 1

/-- Lines 64-76: `list_teams`. -/
def list_teams (w : World) (fuel : Nat) (org : String) : List Json :=
  collectPages w ("/orgs/" ++ org ++ "/teams") fuel 1

/-- Lines 190-197: the member-collection loop of `get_user_from_email`
(its combined stop `if members_response is None or not members_response`
is the same stop condition as the other two loops). -/
def collect_members (w : World) (fuel : Nat) (org : String) : List Json :=
  collectPages w ("/orgs/" ++ org ++ "/members") fuel 1

/-- Lines 203-204: the per-member test of `get_user_from_email`:
fetch `/users/{member['login']}` and test
`user_profile and user_profile.get('email') and
 user_profile['email'].lower() == email.lower()`. -/
def emailMatches (w : World) (email : String) (m : Json) : Bool :=
  match mr w ("/users/" ++ Json.pyStr (m.idx "login")) with
  | some p => p.isTruthy && optTruthy (p.getVal "email") && (Json.pyLower (p.idx "email") == lowerChars email)
  | none => false

/-- Lines 199-206: the member scan of `get_user_from_email`: return
`member['login']` of the first member whose profile matches, else fall
through. -/
def scanMembers (w : World) (email : String) : List Json → Option String
  | [] => none
  | m :: rest =>
    if emailMatches w email m then some (Json.pyStr (m.idx "login"))
    else scanMembers w email rest

/-- The `org: str = None` parameter: `None` or a string. -/
def orgTruthy : Option String → Bool
  | none => false
  | some s => !(s == "")

/-- String interpolation of the `org` parameter (only reached when truthy). -/
def orgStr : Option String → String
  | none => "None"
  | some s => s

/-- Lines 163-210: `get_user_from_email`.  Empty email returns `None`
immediately; when `org` is truthy the org members are collected and
scanned; in every other case (including no match) the function falls
through to `return None`. -/
def get_user_from_email (w : World) (fuel : Nat) (email : String) (org : Option String) : Option String :=
  if email == "" then none
  else if orgTruthy org then
    scanMembers w email (collect_members w fuel (orgStr org))
  else none

/-- Lines 213-235: `validate_user_input`.  An identifier containing `@` is
resolved through `get_user_from_email`, and the resolved login is then
re-checked for truthiness (`if resolved_username:`, lines 221-226): a
truthy (nonempty) login is returned, while `None` or an empty-string
login yields `None`; an identifier without `@` is validated by a direct
`/users/{user_input}` lookup (`if response is not None`, line 230). -/
def validate_user_input (w : World) (fuel : Nat) (user_input : String) (org : Option String) : Option String :=
  if user_input.data.contains '@' then
    match get_user_from_email w fuel user_input org with
    | some u => if u == "" then none else some u
    | none => none
  else
    match mr w ("/users/" ++ user_input) with
    | some _ => some user_input
    | none => none

/-- The access path of a grant: direct collaborator, or via a named team. -/
inductive AccessPath where
  | direct : AccessPath
  | viaTeam : String → AccessPath

/-- One access grant as reported by `get_user_repo_access` (the structured
content of the formatted string it appends, see `Grant.render`). -/
structure Grant where
  repoName : String
  path : AccessPath
  permission : Json

/-- The exact string `get_user_repo_access` appends for a grant (lines 248
and 260). -/
def Grant.render : Grant → String
  | ⟨n, .direct, p⟩ => n ++ " (Direct: " ++ Json.pyStr p ++ ")"
  | ⟨n, .viaTeam t, p⟩ => n ++ " (Via team \x27" ++ t ++ "\x27: " ++ Json.pyStr p ++ ")"

/-- Line 246: `f"/repos/{org}/{repo['name']}/collaborators/{username}/permission"`. -/
def collabEndpoint (org rname username : String) : String :=
  "/repos/" ++ org ++ "/" ++ rname ++ "/collaborators/" ++ username ++ "/permission"

/-- Line 253: `f"/orgs/{org}/memberships/{username}/teams"`. -/
def userTeamsEndpoint (org username : String) : String :=
  "/orgs/" ++ org ++ "/memberships/" ++ username ++ "/teams"

/-- Line 258: `f"/orgs/{org}/teams/{team_slug}/repos/{org}/{repo['name']}"`. -/
def teamRepoEndpoint (org slug rname : String) : String :=
  "/orgs/" ++ org ++ "/teams/" ++ slug ++ "/repos/" ++ org ++ "/" ++ rname

/-- The test applied to both permission lookups (lines 247 and 259):
`response and 'permission' in response`. -/
def grants_permission (r : Option Json) : Bool :=
  match r with
  | some c => c.isTruthy && pyIn "permission" c
  | none => false

/-- The permission read off a successful lookup (lines 248 and 260):
`response['permission']`.  (Only evaluated when `grants_permission`
holds, matching the Python guard.) -/
def permValue (r : Option Json) : Json :=
  match r with
  | some c => c.idx "permission"
  | none => .null

/-- Line 256: `team_membership['team']['slug']`. -/
def team_slug_of (t : Json) : String :=
  Json.pyStr ((t.idx "team").idx "slug")

/-- Line 260: `team_membership['team']['name']`. -/
def team_name_of (t : Json) : String :=
  Json.pyStr ((t.idx "team").idx "name")

/-- Lines 255-261: the inner team loop of `get_user_repo_access` for one
repository: query each team's permission in order, record a grant and
`break` on the first team found with a defined permission.  Also returns
the list of endpoints queried, in order. -/
def scanTeams (w : World) (org rname : String) : List Json → Option Grant × List String
  | [] => (none, [])
  | tm :: rest =>
    let e := teamRepoEndpoint org (team_slug_of tm) rname
    let resp := mr w e
    if grants_permission resp then
      (some { repoName := rname, path := AccessPath.viaTeam (team_name_of tm), permission := permValue resp }, [e])
    else
      let r := scanTeams w org rname rest
      (r.1, e :: r.2)

/-- Lines 251-261: the team phase for one repository: fetch the user's
team memberships (refetched per repository, as in the source), scan them
when the response is truthy. -/
def teamPhase (w : World) (org username rname : String) : Option Grant × List String :=
  let te := userTeamsEndpoint org username
  match mr w te with
  | some t =>
    if t.isTruthy then
      let r := scanTeams w org rname t.toElems
      (r.1, te :: r.2)
    else (none, [te])
  | none => (none, [te])

/-- Lines 243-261: the body of the per-repository loop of
`get_user_repo_access`: the direct-collaborator lookup first; on success
record a Direct grant and `continue` (the team phase is not entered);
otherwise the team phase.  Also returns the endpoints queried for this
repository, in order. -/
def processRepo (w : World) (org username : String) (repo : Json) : Option Grant × List String :=
  let rname := Json.pyStr (repo.idx "name")
  let ce := collabEndpoint org rname username
  let collab := mr w ce
  if grants_permission collab then
    (some { repoName := rname, path := AccessPath.direct, permission := permValue collab }, [ce])
  else
    let tp := teamPhase w org username rname
    (tp.1, ce :: tp.2)

/-- Lines 237-267: `get_user_repo_access`: list the organization's
repositories, process each in order, appending at most one grant per
repository. -/
def get_user_repo_access (w : World) (fuel : Nat) (org username : String) : List Grant :=
  (list_repos w fuel org).foldl
    (fun acc repo =>
      match (processRepo w org username repo).1 with
      | some g => acc ++ [g]
      | none => acc) []

/-- The string list actually returned by the Python function (line 267):
the rendered grants in order. -/
def get_user_repo_access_strings (w : World) (fuel : Nat) (org username : String) : List String :=
  (get_user_repo_access w fuel org username).map Grant.render

/-- The teams the user is iterated over for one repository (lines 253-255):
the elements of a truthy memberships response, nothing otherwise. -/
def teamElems (w : World) (org username : String) : List Json :=
  match mr w (userTeamsEndpoint org username) with
  | some t => if t.isTruthy then t.toElems else []
  | none => []

/- Concrete worlds used to instantiate the theorems below. -/

/-- A full page of 100 records. -/
def page1 : List Json := (List.range 100).map (fun n => Json.num (Int.ofNat n))

/-- A second full page, identical to the first: the records reappear in the
result, exhibiting that no deduplication is performed. -/
def page2 : List Json := page1

/-- A final partial page of 37 records. -/
def page3 : List Json := (List.range 37).map (fun n => Json.num (Int.ofNat n))

/-- A server producing repo pages of sizes 100, 100, 37, 0. -/
def pagesW : World :=
  ⟨fun e =>
    if e = pageEndpoint "/orgs/acme/repos" 1 then HttpOutcome.resp 200 (Body.jsonBody (Json.arr page1))
    else if e = pageEndpoint "/orgs/acme/repos" 2 then HttpOutcome.resp 200 (Body.jsonBody (Json.arr page2))
    else if e = pageEndpoint "/orgs/acme/repos" 3 then HttpOutcome.resp 200 (Body.jsonBody (Json.arr page3))
    else if e = pageEndpoint "/orgs/acme/repos" 4 then HttpOutcome.resp 200 (Body.jsonBody (Json.arr []))
    else HttpOutcome.exn "unexpected endpoint"⟩

/-- A server producing one full repo page and then a connection failure. -/
def truncW : World :=
  ⟨fun e =>
    if e = pageEndpoint "/orgs/acme/repos" 1 then HttpOutcome.resp 200 (Body.jsonBody (Json.arr page1))
    else HttpOutcome.exn "connection reset"⟩

/-- A repository record named `api`. -/
def c1Repo : Json := Json.obj [("name", Json.str "api"), ("private", Json.bool false)]

/-- One repo `api`; `alice` is a direct collaborator with permission `push`;
every team-related endpoint fails, showing it is never needed. -/
def c1World : World :=
  ⟨fun e =>
    if e = pageEndpoint "/orgs/acme/repos" 1 then HttpOutcome.resp 200 (Body.jsonBody (Json.arr [c1Repo]))
    else if e = pageEndpoint "/orgs/acme/repos" 2 then HttpOutcome.resp 200 (Body.jsonBody (Json.arr []))
    else if e = collabEndpoint "acme" "api" "alice" then
      HttpOutcome.resp 200 (Body.jsonBody (Json.obj [("permission", Json.str "push")]))
    else HttpOutcome.exn "unexpected endpoint"⟩

/-- A repository record named `web`. -/
def c2Repo : Json := Json.obj [("name", Json.str "web"), ("private", Json.bool true)]

/-- A team-membership record for team `Backend`. -/
def c2Team1 : Json :=
  Json.obj [("team", Json.obj [("slug", Json.str "backend"), ("name", Json.str "Backend")])]

/-- A team-membership record for team `Frontend`. -/
def c2Team2 : Json :=
  Json.obj [("team", Json.obj [("slug", Json.str "frontend"), ("name", Json.str "Frontend")])]

/-- One repo `web`; `alice` has no direct grant, belongs to `Backend` (which
has no permission on `web`) and to `Frontend` (which has `admin`). -/
def c2World : World :=
  ⟨fun e =>
    if e = pageEndpoint "/orgs/acme/repos" 1 then HttpOutcome.resp 200 (Body.jsonBody (Json.arr [c2Repo]))
    else if e = pageEndpoint "/orgs/acme/repos" 2 then HttpOutcome.resp 200 (Body.jsonBody (Json.arr []))
    else if e = collabEndpoint "acme" "web" "alice" then
      HttpOutcome.resp 404 (Body.jsonBody (Json.obj [("message", Json.str "Not Found")]))
    else if e = userTeamsEndpoint "acme" "alice" then
      HttpOutcome.resp 200 (Body.jsonBody (Json.arr [c2Team1, c2Team2]))
    else if e = teamRepoEndpoint "acme" "backend" "web" then
      HttpOutcome.resp 404 (Body.jsonBody (Json.obj [("message", Json.str "Not Found")]))
    else if e = teamRepoEndpoint "acme" "frontend" "web" then
      HttpOutcome.resp 200 (Body.jsonBody (Json.obj [("permission", Json.str "admin")]))
    else HttpOutcome.exn "unexpected endpoint"⟩

/-- A repository record named `a`. -/
def c4RepoA : Json := Json.obj [("name", Json.str "a")]

/-- A repository record named `b`. -/
def c4RepoB : Json := Json.obj [("name", Json.str "b")]

/-- Two repos `a`, `b`; `alice` has a direct `pull` grant on `a`, the direct
lookup on `b` fails at transport level, and she belongs to no team; so `b`
contributes no entry and the result is shorter than the listing. -/
def c4World : World :=
  ⟨fun e =>
    if e = pageEndpoint "/orgs/acme/repos" 1 then HttpOutcome.resp 200 (Body.jsonBody (Json.arr [c4RepoA, c4RepoB]))
    else if e = pageEndpoint "/orgs/acme/repos" 2 then HttpOutcome.resp 200 (Body.jsonBody (Json.arr []))
    else if e = collabEndpoint "acme" "a" "alice" then
      HttpOutcome.resp 200 (Body.jsonBody (Json.obj [("permission", Json.str "pull")]))
    else if e = collabEndpoint "acme" "b" "alice" then HttpOutcome.exn "timeout"
    else if e = userTeamsEndpoint "acme" "alice" then
      HttpOutcome.resp 200 (Body.jsonBody (Json.arr []))
    else HttpOutcome.exn "unexpected endpoint"⟩

/-- A repository record named `r1`. -/
def c5Repo : Json := Json.obj [("name", Json.str "r1")]

/-- The direct-collaborator lookup on `r1` fails at transport level; the
membership listing succeeds (empty). -/
def c5World : World :=
  ⟨fun e =>
    if e = collabEndpoint "acme" "r1" "alice" then HttpOutcome.exn "timeout"
    else if e = userTeamsEndpoint "acme" "alice" then
      HttpOutcome.resp 200 (Body.jsonBody (Json.arr []))
    else HttpOutcome.exn "unexpected endpoint"⟩

/-- Org members `alice` then `bob`; both profiles expose an email equal to
`a@b.com` up to case, so an email lookup must pick `alice`, the first in
listing order.  `carol` exists as a plain username. -/
def c8World : World :=
  ⟨fun e =>
    if e = pageEndpoint "/orgs/acme/members" 1 then
      HttpOutcome.resp 200 (Body.jsonBody (Json.arr
        [Json.obj [("login", Json.str "alice")], Json.obj [("login", Json.str "bob")]]))
    else if e = pageEndpoint "/orgs/acme/members" 2 then
      HttpOutcome.resp 200 (Body.jsonBody (Json.arr []))
    else if e = "/users/alice" then
      HttpOutcome.resp 200 (Body.jsonBody (Json.obj [("login", Json.str "alice"), ("email", Json.str "A@B.com")]))
    else if e = "/users/bob" then
      HttpOutcome.resp 200 (Body.jsonBody (Json.obj [("login", Json.str "bob"), ("email", Json.str "a@b.com")]))
    else if e = "/users/carol" then
      HttpOutcome.resp 200 (Body.jsonBody (Json.obj [("login", Json.str "carol")]))
    else HttpOutcome.exn "unexpected endpoint"⟩

/-- Every request gets a 404 with an empty body. -/
def c9EmptyW : World := ⟨fun _ => HttpOutcome.resp 404 Body.empty⟩

/-- Every request gets a 500 with a JSON body carrying a message. -/
def c9JsonW : World :=
  ⟨fun _ => HttpOutcome.resp 500 (Body.jsonBody (Json.obj [("message", Json.str "boom")]))⟩

/-- Every request gets a 403 with a JSON body lacking a `message` field. -/
def c9NoMsgW : World :=
  ⟨fun _ => HttpOutcome.resp 403 (Body.jsonBody (Json.obj [("documentation_url", Json.str "x")]))⟩

/- Helper lemmas. -/

/-- The append-accumulate loop of `get_user_repo_access` is a `filterMap`
of the per-repository processing over the listing. -/
theorem foldl_access (w : World) (org username : String) (l : List Json) :
    ∀ init : List Grant,
      List.foldl (fun acc repo =>
        match (processRepo w org username repo).1 with
        | some g => acc ++ [g]
        | none => acc) init l
      = init ++ l.filterMap (fun r => (processRepo w org username r).1) := by
  induction l with
  | nil => intro init; simp
  | cons x t ih =>
    intro init
    simp only [List.foldl_cons, List.filterMap_cons]
    cases hx : (processRepo w org username x).1 with
    | none => simp only [hx]; exact ih init
    | some g => simp only [hx]; rw [ih (init ++ [g])]; simp

/-- `get_user_repo_access` as a `filterMap` over the repository listing:
each listing entry contributes its own optional grant, independently of
the other entries. -/
theorem access_eq_filterMap (w : World) (fuel : Nat) (org username : String) :
    get_user_repo_access w fuel org username
      = (list_repos w fuel org).filterMap (fun r => (processRepo w org username r).1) := by
  unfold get_user_repo_access
  rw [foldl_access]
  simp

/-- A grant produced by the team scan carries the repository name the scan
was run for. -/
theorem scanTeams_name (w : World) (org rname : String) :
    ∀ (ts : List Json) (g : Grant), (scanTeams w org rname ts).1 = some g → g.repoName = rname := by
  intro ts
  induction ts with
  | nil => intro g h; simp [scanTeams] at h
  | cons tm rest ih =>
    intro g h
    simp only [scanTeams] at h
    split at h
    · simp only [Option.some.injEq] at h
      rw [← h]
    · exact ih g h

/-- A grant produced by the team phase carries the repository name. -/
theorem teamPhase_name (w : World) (org username rname : String) :
    ∀ g : Grant, (teamPhase w org username rname).1 = some g → g.repoName = rname := by
  intro g h
  simp only [teamPhase] at h
  split at h
  · split at h
    · exact scanTeams_name w org rname _ g h
    · simp at h
  · simp at h

/-- A grant produced for a repository carries that repository's name. -/
theorem processRepo_name (w : World) (org username : String) :
    ∀ (repo : Json) (g : Grant), (processRepo w org username repo).1 = some g →
      g.repoName = Json.pyStr (repo.idx "name") := by
  intro repo g h
  simp only [processRepo] at h
  split at h
  · simp only [Option.some.injEq] at h
    rw [← h]
  · exact teamPhase_name w org username (Json.pyStr (repo.idx "name")) g h

/-- No grant bearing the name `nm` arises from repositories all named
differently. -/
theorem access_filter_nil (w : World) (org username nm : String) :
    ∀ l : List Json, (∀ r ∈ l, Json.pyStr (r.idx "name") ≠ nm) →
      ((l.filterMap (fun r => (processRepo w org username r).1)).filter
        (fun g => g.repoName == nm)) = [] := by
  intro l
  induction l with
  | nil => intro _; simp
  | cons x t ih =>
    intro h
    rw [List.filterMap_cons]
    cases hx : (processRepo w org username x).1 with
    | none => exact ih (fun r hr => h r (List.mem_cons_of_mem x hr))
    | some g =>
      rw [List.filter_cons]
      have hne : (g.repoName == nm) = false := by
        rw [processRepo_name w org username x g hx]
        exact beq_eq_false_iff_ne.mpr (h x (List.mem_cons_self x t))
      simp only [hne, Bool.false_eq_true, if_false]
      exact ih (fun r hr => h r (List.mem_cons_of_mem x hr))

/-- In a listing whose names are pairwise distinct, the grants named after
one listing entry are exactly that entry's own optional grant. -/
theorem access_filter_unique (w : World) (org username : String) :
    ∀ (l1 : List Json) (a : Json) (l2 : List Json),
      (((l1 ++ a :: l2).map (fun r => Json.pyStr (r.idx "name"))).Nodup) →
      (((l1 ++ a :: l2).filterMap (fun r => (processRepo w org username r).1)).filter
          (fun g => g.repoName == Json.pyStr (a.idx "name")))
        = ((processRepo w org username a).1).toList := by
  intro l1
  induction l1 with
  | nil =>
    intro a l2 hnd
    simp only [List.nil_append, List.map_cons, List.nodup_cons] at hnd
    rw [List.nil_append, List.filterMap_cons]
    cases ha : (processRepo w org username a).1 with
    | none =>
      simp only [Option.toList]
      apply access_filter_nil
      intro r hr hname
      apply hnd.1
      rw [← hname]
      exact List.mem_map_of_mem _ hr
    | some g =>
      have hg := processRepo_name w org username a g ha
      rw [List.filter_cons]
      have hpos : (g.repoName == Json.pyStr (a.idx "name")) = true := by
        rw [hg]
        exact beq_self_eq_true _
      simp only [hpos, if_true, Option.toList]
      have hrest : ((l2.filterMap (fun r => (processRepo w org username r).1)).filter
          (fun g2 => g2.repoName == Json.pyStr (a.idx "name"))) = [] := by
        apply access_filter_nil
        intro r hr hname
        apply hnd.1
        rw [← hname]
        exact List.mem_map_of_mem _ hr
      rw [hrest]
  | cons x t ih =>
    intro a l2 hnd
    rw [List.cons_append] at hnd ⊢
    simp only [List.map_cons, List.nodup_cons] at hnd
    have hmemname : Json.pyStr (a.idx "name")
        ∈ ((t ++ a :: l2).map (fun r => Json.pyStr (r.idx "name"))) := by
      apply List.mem_map_of_mem
      exact List.mem_append_right t (List.mem_cons_self a l2)
    have hxa : Json.pyStr (x.idx "name") ≠ Json.pyStr (a.idx "name") := by
      intro hEq
      rw [← hEq] at hmemname
      exact hnd.1 hmemname
    rw [List.filterMap_cons]
    cases hx : (processRepo w org username x).1 with
    | none => exact ih a l2 hnd.2
    | some g =>
      rw [List.filter_cons]
      have hne : (g.repoName == Json.pyStr (a.idx "name")) = false := by
        rw [processRepo_name w org username x g hx]
        exact beq_eq_false_iff_ne.mpr hxa
      simp only [hne, Bool.false_eq_true, if_false]
      exact ih a l2 hnd.2

/-- The grants' repository names form a subsequence of the listing's
names: order is preserved and each entry contributes at most once. -/
theorem access_names_sublist (w : World) (org username : String) :
    ∀ l : List Json,
      List.Sublist ((l.filterMap (fun r => (processRepo w org username r).1)).map Grant.repoName)
        (l.map (fun r => Json.pyStr (r.idx "name"))) := by
  intro l
  induction l with
  | nil => simp
  | cons x t ih =>
    rw [List.filterMap_cons, List.map_cons]
    cases hx : (processRepo w org username x).1 with
    | none => exact List.Sublist.cons _ ih
    | some g =>
      rw [List.map_cons, processRepo_name w org username x g hx]
      exact List.Sublist.cons₂ _ ih

/-- A team scan over teams none of which has a defined permission on the
repository yields no grant. -/
theorem scanTeams_none (w : World) (org rname : String) :
    ∀ ts : List Json,
      (∀ t ∈ ts, grants_permission (mr w (teamRepoEndpoint org (team_slug_of t) rname)) = false) →
      (scanTeams w org rname ts).1 = none := by
  intro ts
  induction ts with
  | nil => intro _; rfl
  | cons tm rest ih =>
    intro h
    simp only [scanTeams]
    rw [h tm (List.mem_cons_self tm rest)]
    simp only [Bool.false_eq_true, if_false]
    exact ih (fun t ht => h t (List.mem_cons_of_mem tm ht))

/-- The grant of the team phase is the grant of the scan over the teams
the loop iterates (none when the membership fetch fails or is falsy). -/
theorem teamPhase_fst (w : World) (org username rname : String) :
    (teamPhase w org username rname).1 = (scanTeams w org rname (teamElems w org username)).1 := by
  simp only [teamPhase, teamElems]
  cases hmr : mr w (userTeamsEndpoint org username) with
  | none => rfl
  | some t =>
    by_cases ht : t.isTruthy = true
    · simp only [ht, if_true]
    · simp only [ht, Bool.false_eq_true, if_false]
      rfl

/-- The team scan stops at the first team with a defined permission: it
records that team's grant, and the queried endpoints are exactly those of
the earlier (failing) teams followed by the found team's. -/
theorem scanTeams_found (w : World) (org rname : String) :
    ∀ (pre : List Json) (ti : Json) (post : List Json),
      (∀ t ∈ pre, grants_permission (mr w (teamRepoEndpoint org (team_slug_of t) rname)) = false) →
      grants_permission (mr w (teamRepoEndpoint org (team_slug_of ti) rname)) = true →
      scanTeams w org rname (pre ++ ti :: post)
        = (some { repoName := rname, path := AccessPath.viaTeam (team_name_of ti),
                  permission := permValue (mr w (teamRepoEndpoint org (team_slug_of ti) rname)) },
           pre.map (fun t => teamRepoEndpoint org (team_slug_of t) rname)
             ++ [teamRepoEndpoint org (team_slug_of ti) rname]) := by
  intro pre
  induction pre with
  | nil =>
    intro ti post hpre hti
    simp only [List.nil_append, scanTeams, hti, if_true, List.map_nil]
  | cons x t ih =>
    intro ti post hpre hti
    simp only [List.cons_append, scanTeams]
    rw [hpre x (List.mem_cons_self x t)]
    simp only [Bool.false_eq_true, if_false, List.append_eq]
    rw [ih ti post (fun u hu => hpre u (List.mem_cons_of_mem x hu)) hti]
    simp

/-- The pagination loop concatenates consecutive nonempty pages in order,
beginning at `start`, and stops at the first page that fails or is falsy. -/
theorem collect_concat (w : World) (base : String) :
    ∀ (ps : List (List Json)) (start fuel : Nat),
      (∀ i, (h : i < ps.length) →
        mr w (pageEndpoint base (start + i)) = some (Json.arr (ps.get ⟨i, h⟩)) ∧
        (Json.arr (ps.get ⟨i, h⟩)).isTruthy = true) →
      (mr w (pageEndpoint base (start + ps.length)) = none ∨
        ∃ r, mr w (pageEndpoint base (start + ps.length)) = some r ∧ r.isTruthy = false) →
      ps.length < fuel →
      collectPages w base fuel start = ps.flatten := by
  intro ps
  induction ps with
  | nil =>
    intro start fuel hpages hstop hfuel
    simp only [List.length_nil, Nat.add_zero] at hstop
    match fuel, hfuel with
    | fuel + 1, _ =>
      simp only [collectPages]
      rcases hstop with hn | ⟨r, hr, hrf⟩
      · rw [hn]
        rfl
      · rw [hr]
        simp only [hrf, Bool.false_eq_true, if_false]
        rfl
  | cons p pt ih =>
    intro start fuel hpages hstop hfuel
    match fuel, hfuel with
    | fuel + 1, hfuel =>
      simp only [collectPages]
      obtain ⟨hm0, ht0⟩ := hpages 0 (by simp)
      simp only [Nat.add_zero, List.get_cons_zero] at hm0 ht0
      rw [hm0]
      simp only [ht0, if_true]
      have hflat : (p :: pt).flatten = p ++ pt.flatten := by simp
      rw [hflat]
      have hrec : collectPages w base fuel (start + 1) = pt.flatten := by
        apply ih (start + 1) fuel
        · intro i hi
          have hstep := hpages (i + 1) (by simp only [List.length_cons]; omega)
          have harg : start + (i + 1) = start + 1 + i := by omega
          rw [harg] at hstep
          simpa using hstep
        · have hlen : start + (p :: pt).length = start + 1 + pt.length := by
            simp only [List.length_cons]; omega
          rw [hlen] at hstop
          exact hstop
        · simp only [List.length_cons] at hfuel; omega
      rw [hrec]
      simp [Json.toElems]

/- Claim theorems. -/

/-- Claim C1: for every repository R in the organization's listing, if the
direct-collaborator permission lookup for the username on R returns a
defined permission P (a truthy object response containing the key
`permission`, with value P), then R's processing records the grant with
path Direct and permission P and consults only the direct-collaborator
endpoint — no team lookup for R, and the world's team data is arbitrary;
moreover, in a listing with pairwise-distinct names, the full resolution
result contains exactly one grant for R, namely that one. -/
theorem C1_direct_wins (w : World) (fuel : Nat) (org username rname : String)
    (repo : Json) (cf : List (String × Json)) (P : Json)
    (hname : Json.pyStr (repo.idx "name") = rname)
    (hmr : mr w (collabEndpoint org rname username) = some (Json.obj cf))
    (htr : (Json.obj cf).isTruthy = true)
    (hin : pyIn "permission" (Json.obj cf) = true)
    (hP : (Json.obj cf).idx "permission" = P) :
    processRepo w org username repo
      = (some { repoName := rname, path := AccessPath.direct, permission := P },
         [collabEndpoint org rname username]) ∧
    (∀ l1 l2 : List Json, list_repos w fuel org = l1 ++ repo :: l2 →
      (((l1 ++ repo :: l2).map (fun r => Json.pyStr (r.idx "name"))).Nodup) →
      ((get_user_repo_access w fuel org username).filter (fun g => g.repoName == rname))
        = [{ repoName := rname, path := AccessPath.direct, permission := P }]) := by
  subst hname
  have hgp : grants_permission
      (mr w (collabEndpoint org (Json.pyStr (repo.idx "name")) username)) = true := by
    rw [hmr]
    simp [grants_permission, htr, hin]
  have h1 : processRepo w org username repo
      = (some { repoName := Json.pyStr (repo.idx "name"), path := AccessPath.direct,
                permission := P },
         [collabEndpoint org (Json.pyStr (repo.idx "name")) username]) := by
    simp only [processRepo, hgp, if_true]
    rw [hmr]
    simp only [permValue]
    rw [hP]
  refine ⟨h1, ?_⟩
  intro l1 l2 hlist hnd
  rw [access_eq_filterMap, hlist, access_filter_unique w org username l1 repo l2 hnd, h1]
  rfl

/-- Witness for C1 at a concrete world: one repo `api`, a direct `push`
grant, every team endpoint failing (and hence unconsulted). -/
theorem C1_direct_wins_witness :
    processRepo c1World "acme" "alice" c1Repo
      = (some { repoName := "api", path := AccessPath.direct, permission := Json.str "push" },
         [collabEndpoint "acme" "api" "alice"]) ∧
    ((get_user_repo_access c1World 3 "acme" "alice").filter (fun g => g.repoName == "api"))
      = [{ repoName := "api", path := AccessPath.direct, permission := Json.str "push" }] := by
  have h := C1_direct_wins c1World 3 "acme" "alice" "api" c1Repo
      [("permission", Json.str "push")] (Json.str "push") rfl rfl rfl rfl rfl
  exact ⟨h.1, h.2 [] [] rfl (by decide)⟩

/-- Claim C2: for a repository R with no direct grant, if the username's
membership listing is T1..Tn and Ti is the first team whose permission
lookup on R returns a defined permission P, then R's processing records
the grant with path ViaTeam(Ti's name) and permission P, and the
endpoints consulted for R are exactly the direct lookup, the membership
listing, and the team lookups up to and including Ti — no team after Ti
is queried; in a distinct-name listing the full result's sole grant for R
is that one. -/
theorem C2_first_team_wins (w : World) (fuel : Nat) (org username rname : String)
    (repo T ti : Json) (pre post : List Json) (slug tname : String)
    (pf : List (String × Json)) (P : Json)
    (hname : Json.pyStr (repo.idx "name") = rname)
    (hdirect : grants_permission (mr w (collabEndpoint org rname username)) = false)
    (hteams : mr w (userTeamsEndpoint org username) = some T)
    (hT : T.isTruthy = true)
    (helems : T.toElems = pre ++ ti :: post)
    (hpre : ∀ t ∈ pre, grants_permission (mr w (teamRepoEndpoint org (team_slug_of t) rname)) = false)
    (hslug : team_slug_of ti = slug)
    (htname : team_name_of ti = tname)
    (hti : mr w (teamRepoEndpoint org slug rname) = some (Json.obj pf))
    (htr : (Json.obj pf).isTruthy = true)
    (hin : pyIn "permission" (Json.obj pf) = true)
    (hP : (Json.obj pf).idx "permission" = P) :
    processRepo w org username repo
      = (some { repoName := rname, path := AccessPath.viaTeam tname, permission := P },
         collabEndpoint org rname username :: userTeamsEndpoint org username ::
           (pre.map (fun t => teamRepoEndpoint org (team_slug_of t) rname)
             ++ [teamRepoEndpoint org slug rname])) ∧
    (∀ l1 l2 : List Json, list_repos w fuel org = l1 ++ repo :: l2 →
      (((l1 ++ repo :: l2).map (fun r => Json.pyStr (r.idx "name"))).Nodup) →
      ((get_user_repo_access w fuel org username).filter (fun g => g.repoName == rname))
        = [{ repoName := rname, path := AccessPath.viaTeam tname, permission := P }]) := by
  subst hname
  subst hslug
  subst htname
  have hgpti : grants_permission
      (mr w (teamRepoEndpoint org (team_slug_of ti) (Json.pyStr (repo.idx "name")))) = true := by
    rw [hti]
    simp [grants_permission, htr, hin]
  have hperm : permValue
      (mr w (teamRepoEndpoint org (team_slug_of ti) (Json.pyStr (repo.idx "name")))) = P := by
    rw [hti]
    simp only [permValue]
    exact hP
  have hscan := scanTeams_found w org (Json.pyStr (repo.idx "name")) pre ti post hpre hgpti
  have h1 : processRepo w org username repo
      = (some { repoName := Json.pyStr (repo.idx "name"),
                path := AccessPath.viaTeam (team_name_of ti), permission := P },
         collabEndpoint org (Json.pyStr (repo.idx "name")) username
           :: userTeamsEndpoint org username ::
           (pre.map (fun t => teamRepoEndpoint org (team_slug_of t) (Json.pyStr (repo.idx "name")))
             ++ [teamRepoEndpoint org (team_slug_of ti) (Json.pyStr (repo.idx "name"))])) := by
    simp only [processRepo, hdirect, Bool.false_eq_true, if_false]
    simp only [teamPhase, hteams, hT, if_true]
    rw [helems, hscan, hperm]
  refine ⟨h1, ?_⟩
  intro l1 l2 hlist hnd
  rw [access_eq_filterMap, hlist, access_filter_unique w org username l1 repo l2 hnd, h1]
  rfl

/-- Witness for C2 at a concrete world: repo `web`, no direct grant, team
`Backend` without and team `Frontend` with an `admin` permission. -/
theorem C2_first_team_wins_witness :
    processRepo c2World "acme" "alice" c2Repo
      = (some { repoName := "web", path := AccessPath.viaTeam "Frontend",
                permission := Json.str "admin" },
         collabEndpoint "acme" "web" "alice" :: userTeamsEndpoint "acme" "alice" ::
           ([c2Team1].map (fun t => teamRepoEndpoint "acme" (team_slug_of t) "web")
             ++ [teamRepoEndpoint "acme" "frontend" "web"])) ∧
    ((get_user_repo_access c2World 3 "acme" "alice").filter (fun g => g.repoName == "web"))
      = [{ repoName := "web", path := AccessPath.viaTeam "Frontend",
           permission := Json.str "admin" }] := by
  have h := C2_first_team_wins c2World 3 "acme" "alice" "web" c2Repo
      (Json.arr [c2Team1, c2Team2]) c2Team2 [c2Team1] [] "frontend" "Frontend"
      [("permission", Json.str "admin")] (Json.str "admin")
      rfl rfl rfl rfl rfl
      (by intro t ht; rw [List.mem_singleton] at ht; subst ht; rfl)
      rfl rfl rfl rfl rfl rfl
  exact ⟨h.1, h.2 [] [] rfl (by decide)⟩

/-- Claim C3: the resolution result is the per-repository filterMap of
the listing, so it has at most one grant per listing entry; its grants'
repository names form a subsequence of the listing's names (same
relative order); and when the listing's names are pairwise distinct, so
are the result's — at most one grant per repository. -/
theorem C3_order_and_uniqueness (w : World) (fuel : Nat) (org username : String) :
    get_user_repo_access w fuel org username
      = (list_repos w fuel org).filterMap (fun r => (processRepo w org username r).1) ∧
    List.Sublist ((get_user_repo_access w fuel org username).map Grant.repoName)
      ((list_repos w fuel org).map (fun r => Json.pyStr (r.idx "name"))) ∧
    (((list_repos w fuel org).map (fun r => Json.pyStr (r.idx "name"))).Nodup →
      ((get_user_repo_access w fuel org username).map Grant.repoName).Nodup) := by
  have he := access_eq_filterMap w fuel org username
  refine ⟨he, ?_, ?_⟩
  · rw [he]
    exact access_names_sublist w org username (list_repos w fuel org)
  · intro hnd
    rw [he]
    exact hnd.sublist (access_names_sublist w org username (list_repos w fuel org))

/-- Witness for C3 at a concrete two-repository world. -/
theorem C3_order_and_uniqueness_witness :
    ((get_user_repo_access c4World 3 "acme" "alice").map Grant.repoName).Nodup :=
  (C3_order_and_uniqueness c4World 3 "acme" "alice").2.2 (by decide)

/-- Claim C4: when neither the direct-collaborator lookup nor any of the
user's teams yields a defined permission on R, R contributes no grant; in
a distinct-name listing the result then has no entry named after R; and
the result can be strictly shorter than the listing, as at the concrete
world `c4World` (two repositories, one grant). -/
theorem C4_omitted (w : World) (fuel : Nat) (org username rname : String) (repo : Json)
    (hname : Json.pyStr (repo.idx "name") = rname)
    (hdirect : grants_permission (mr w (collabEndpoint org rname username)) = false)
    (hteams : ∀ t ∈ teamElems w org username,
      grants_permission (mr w (teamRepoEndpoint org (team_slug_of t) rname)) = false) :
    (processRepo w org username repo).1 = none ∧
    (∀ l1 l2 : List Json, list_repos w fuel org = l1 ++ repo :: l2 →
      (((l1 ++ repo :: l2).map (fun r => Json.pyStr (r.idx "name"))).Nodup) →
      ((get_user_repo_access w fuel org username).filter (fun g => g.repoName == rname)) = []) ∧
    (get_user_repo_access c4World 3 "acme" "alice").length < (list_repos c4World 3 "acme").length := by
  subst hname
  have h0 : (processRepo w org username repo).1
      = (teamPhase w org username (Json.pyStr (repo.idx "name"))).1 := by
    simp only [processRepo, hdirect, Bool.false_eq_true, if_false]
  have h1 : (processRepo w org username repo).1 = none := by
    rw [h0, teamPhase_fst]
    exact scanTeams_none w org (Json.pyStr (repo.idx "name")) (teamElems w org username) hteams
  refine ⟨h1, ?_, by decide⟩
  intro l1 l2 hlist hnd
  rw [access_eq_filterMap, hlist, access_filter_unique w org username l1 repo l2 hnd, h1]
  rfl

/-- Witness for C4 at a concrete world: repo `b` has a failing direct
lookup and the user belongs to no team, so `b` contributes nothing. -/
theorem C4_omitted_witness :
    (processRepo c4World "acme" "alice" c4RepoB).1 = none ∧
    ((get_user_repo_access c4World 3 "acme" "alice").filter (fun g => g.repoName == "b")) = [] := by
  have h := C4_omitted c4World 3 "acme" "alice" "b" c4RepoB rfl rfl
      (by
        intro t ht
        rw [show teamElems c4World "acme" "alice" = ([] : List Json) from rfl] at ht
        exact absurd ht (List.not_mem_nil t))
  exact ⟨h.1, h.2.1 [c4RepoA] [] rfl (by decide)⟩

/-- Claim C5: a transport failure on the direct-collaborator lookup is
treated exactly like a response without a defined permission — the team
phase runs either way with the same outcome; a transport failure on one
team's lookup is treated exactly like a permission-less response — the
scan continues with the next team; and the resolution is a
per-repository filterMap over the listing, so one repository's failed
lookups never abort the processing of the others. -/
theorem C5_partial_failure_tolerance :
    (∀ (w : World) (org username : String) (repo : Json),
      mr w (collabEndpoint org (Json.pyStr (repo.idx "name")) username) = none →
      processRepo w org username repo
        = ((teamPhase w org username (Json.pyStr (repo.idx "name"))).1,
           collabEndpoint org (Json.pyStr (repo.idx "name")) username
             :: (teamPhase w org username (Json.pyStr (repo.idx "name"))).2)) ∧
    (∀ (w : World) (org username : String) (repo : Json) (c : Json),
      mr w (collabEndpoint org (Json.pyStr (repo.idx "name")) username) = some c →
      (c.isTruthy && pyIn "permission" c) = false →
      processRepo w org username repo
        = ((teamPhase w org username (Json.pyStr (repo.idx "name"))).1,
           collabEndpoint org (Json.pyStr (repo.idx "name")) username
             :: (teamPhase w org username (Json.pyStr (repo.idx "name"))).2)) ∧
    (∀ (w : World) (org rname : String) (tm : Json) (rest : List Json),
      mr w (teamRepoEndpoint org (team_slug_of tm) rname) = none →
      scanTeams w org rname (tm :: rest)
        = ((scanTeams w org rname rest).1,
           teamRepoEndpoint org (team_slug_of tm) rname :: (scanTeams w org rname rest).2)) ∧
    (∀ (w : World) (org rname : String) (tm : Json) (rest : List Json) (p : Json),
      mr w (teamRepoEndpoint org (team_slug_of tm) rname) = some p →
      (p.isTruthy && pyIn "permission" p) = false →
      scanTeams w org rname (tm :: rest)
        = ((scanTeams w org rname rest).1,
           teamRepoEndpoint org (team_slug_of tm) rname :: (scanTeams w org rname rest).2)) ∧
    (∀ (w : World) (fuel : Nat) (org username : String),
      get_user_repo_access w fuel org username
        = (list_repos w fuel org).filterMap (fun r => (processRepo w org username r).1)) := by
  refine ⟨?_, ?_, ?_, ?_, ?_⟩
  · intro w org username repo hmr
    have hgp : grants_permission
        (mr w (collabEndpoint org (Json.pyStr (repo.idx "name")) username)) = false := by
      rw [hmr]
      rfl
    simp only [processRepo, hgp, Bool.false_eq_true, if_false]
  · intro w org username repo c hmr hc
    have hgp : grants_permission
        (mr w (collabEndpoint org (Json.pyStr (repo.idx "name")) username)) = false := by
      rw [hmr]
      simpa [grants_permission] using hc
    simp only [processRepo, hgp, Bool.false_eq_true, if_false]
  · intro w org rname tm rest hmr
    have hgp : grants_permission (mr w (teamRepoEndpoint org (team_slug_of tm) rname)) = false := by
      rw [hmr]
      rfl
    simp only [scanTeams, hgp, Bool.false_eq_true, if_false]
  · intro w org rname tm rest p hmr hp
    have hgp : grants_permission (mr w (teamRepoEndpoint org (team_slug_of tm) rname)) = false := by
      rw [hmr]
      simpa [grants_permission] using hp
    simp only [scanTeams, hgp, Bool.false_eq_true, if_false]
  · intro w fuel org username
    exact access_eq_filterMap w fuel org username

/-- Witness for C5 at a concrete world: the direct lookup on `r1` and the
team lookup of `backend` both fail at transport level; processing
continues with the team phase and the remaining teams respectively. -/
theorem C5_partial_failure_tolerance_witness :
    processRepo c5World "acme" "alice" c5Repo
      = ((teamPhase c5World "acme" "alice" "r1").1,
         collabEndpoint "acme" "r1" "alice" :: (teamPhase c5World "acme" "alice" "r1").2) ∧
    scanTeams c5World "acme" "r1" [c2Team1]
      = ((scanTeams c5World "acme" "r1" []).1,
         teamRepoEndpoint "acme" "backend" "r1" :: (scanTeams c5World "acme" "r1" []).2) := by
  constructor
  · exact C5_partial_failure_tolerance.1 c5World "acme" "alice" c5Repo rfl
  · exact C5_partial_failure_tolerance.2.2.1 c5World "acme" "r1" c2Team1 [] rfl

/-- The member scan of `get_user_from_email` returns the login of the
first member in listing order whose profile matches the email. -/
theorem scanMembers_eq_find (w : World) (email : String) :
    ∀ ms : List Json,
      scanMembers w email ms
        = (ms.find? (emailMatches w email)).map (fun m => Json.pyStr (m.idx "login")) := by
  intro ms
  induction ms with
  | nil => rfl
  | cons m rest ih =>
    cases hm : emailMatches w email m with
    | true => simp [scanMembers, List.find?_cons, hm]
    | false => simp [scanMembers, List.find?_cons, hm, ih]

/-- Claim C6: the pagination loop requests consecutive pages of fixed
size 100 starting at page 1 (`list_repos`/`list_teams` are
`collectPages` at page 1, and `pageEndpoint` fixes `per_page=100`),
stops at the first page with an empty record set, and returns the
concatenation of the pages' records in server order with no
deduplication. -/
theorem C6_pagination :
    (∀ (w : World) (fuel : Nat) (org : String),
      list_repos w fuel org = collectPages w ("/orgs/" ++ org ++ "/repos") fuel 1) ∧
    (∀ (w : World) (fuel : Nat) (org : String),
      list_teams w fuel org = collectPages w ("/orgs/" ++ org ++ "/teams") fuel 1) ∧
    (∀ (w : World) (org : String) (ps : List (List Json)) (fuel : Nat),
      (∀ i, (h : i < ps.length) →
        mr w (pageEndpoint ("/orgs/" ++ org ++ "/repos") (1 + i))
          = some (Json.arr (ps.get ⟨i, h⟩)) ∧
        (Json.arr (ps.get ⟨i, h⟩)).isTruthy = true) →
      mr w (pageEndpoint ("/orgs/" ++ org ++ "/repos") (1 + ps.length)) = some (Json.arr []) →
      ps.length < fuel →
      list_repos w fuel org = ps.flatten) := by
  refine ⟨fun w fuel org => rfl, fun w fuel org => rfl, ?_⟩
  intro w org ps fuel hpages hstop hfuel
  unfold list_repos
  exact collect_concat w ("/orgs/" ++ org ++ "/repos") ps 1 fuel hpages
    (Or.inr ⟨Json.arr [], hstop, rfl⟩) hfuel

/-- Witness for C6: pages of sizes 100, 100, 37 and then an empty page
yield exactly the 237 records in original order (pages 1 and 2 carry the
same records, all of which survive: no deduplication). -/
theorem C6_pagination_witness :
    list_repos pagesW 5 "acme" = page1 ++ page2 ++ page3 ∧
    (page1 ++ page2 ++ page3).length = 237 := by
  have hpages : ∀ i, (h : i < ([page1, page2, page3] : List (List Json)).length) →
      mr pagesW (pageEndpoint ("/orgs/" ++ "acme" ++ "/repos") (1 + i))
        = some (Json.arr (([page1, page2, page3] : List (List Json)).get ⟨i, h⟩)) ∧
      (Json.arr (([page1, page2, page3] : List (List Json)).get ⟨i, h⟩)).isTruthy = true := by
    intro i h
    match i, h with
    | 0, _ => exact ⟨rfl, rfl⟩
    | 1, _ => exact ⟨rfl, rfl⟩
    | 2, _ => exact ⟨rfl, rfl⟩
    | n + 3, h => exact absurd h (by simp only [List.length_cons, List.length_nil]; omega)
  have h := C6_pagination.2.2 pagesW "acme" [page1, page2, page3] 5 hpages rfl (by
    simp only [List.length_cons, List.length_nil]; omega)
  constructor
  · rw [h]
    simp
  · rfl

/-- Claim C7: when the transport fails on some page, the pagination loop
stops and returns exactly the records collected from the earlier
successful pages — silent truncation, not a failure. -/
theorem C7_truncation (w : World) (org : String) (ps : List (List Json)) (fuel : Nat)
    (hpages : ∀ i, (h : i < ps.length) →
      mr w (pageEndpoint ("/orgs/" ++ org ++ "/repos") (1 + i))
        = some (Json.arr (ps.get ⟨i, h⟩)) ∧
      (Json.arr (ps.get ⟨i, h⟩)).isTruthy = true)
    (hstop : mr w (pageEndpoint ("/orgs/" ++ org ++ "/repos") (1 + ps.length)) = none)
    (hfuel : ps.length < fuel) :
    list_repos w fuel org = ps.flatten := by
  unfold list_repos
  exact collect_concat w ("/orgs/" ++ org ++ "/repos") ps 1 fuel hpages (Or.inl hstop) hfuel

/-- Witness for C7: one full page of 100 records followed by a transport
error yields exactly those 100 records. -/
theorem C7_truncation_witness :
    list_repos truncW 5 "acme" = page1 ∧ page1.length = 100 := by
  have hpages : ∀ i, (h : i < ([page1] : List (List Json)).length) →
      mr truncW (pageEndpoint ("/orgs/" ++ "acme" ++ "/repos") (1 + i))
        = some (Json.arr (([page1] : List (List Json)).get ⟨i, h⟩)) ∧
      (Json.arr (([page1] : List (List Json)).get ⟨i, h⟩)).isTruthy = true := by
    intro i h
    match i, h with
    | 0, _ => exact ⟨rfl, rfl⟩
    | n + 1, h => exact absurd h (by simp only [List.length_cons, List.length_nil]; omega)
  have h := C7_truncation truncW "acme" [page1] 5 hpages rfl (by
    simp only [List.length_cons, List.length_nil]; omega)
  constructor
  · rw [h]
    simp
  · rfl

/-- Claim C8: an identifier containing `@` is resolved by scanning the
paginated organization member listing: `get_user_from_email` returns the
login of the first member in listing order whose individually fetched
profile email matches the input case-insensitively (with two members
sharing the email, the first-listed wins, deterministically: the oracle
is a function), and `validate_user_input` returns that login after the
truthiness re-check of lines 221-226 — a nonempty first-matching login
is returned as is, no match yields `None`, and a degenerate empty-string
login is also mapped to `None` by the re-check; an identifier without
`@` is resolved by a direct profile lookup, returned unchanged on
success and `None` on failure. -/
theorem C8_identity_resolution :
    (∀ (w : World) (fuel : Nat) (o email : String),
      email.data.contains '@' = true → (o == "") = false →
      get_user_from_email w fuel email (some o)
        = ((collect_members w fuel o).find? (emailMatches w email)).map
            (fun m => Json.pyStr (m.idx "login"))) ∧
    (∀ (w : World) (fuel : Nat) (o email : String) (m : Json),
      email.data.contains '@' = true → (o == "") = false →
      (collect_members w fuel o).find? (emailMatches w email) = some m →
      (Json.pyStr (m.idx "login") == "") = false →
      validate_user_input w fuel email (some o) = some (Json.pyStr (m.idx "login"))) ∧
    (∀ (w : World) (fuel : Nat) (o email : String),
      email.data.contains '@' = true → (o == "") = false →
      (collect_members w fuel o).find? (emailMatches w email) = none →
      validate_user_input w fuel email (some o) = none) ∧
    (∀ (w : World) (fuel : Nat) (o email : String) (m : Json),
      email.data.contains '@' = true → (o == "") = false →
      (collect_members w fuel o).find? (emailMatches w email) = some m →
      (Json.pyStr (m.idx "login") == "") = true →
      validate_user_input w fuel email (some o) = none) ∧
    (∀ (w : World) (email : String) (m1 : Json) (rest : List Json),
      emailMatches w email m1 = true →
      scanMembers w email (m1 :: rest) = some (Json.pyStr (m1.idx "login"))) ∧
    (∀ (w : World) (fuel : Nat) (u : String) (org : Option String) (r : Json),
      u.data.contains '@' = false → mr w ("/users/" ++ u) = some r →
      validate_user_input w fuel u org = some u) ∧
    (∀ (w : World) (fuel : Nat) (u : String) (org : Option String),
      u.data.contains '@' = false → mr w ("/users/" ++ u) = none →
      validate_user_input w fuel u org = none) := by
  have key : ∀ (w : World) (fuel : Nat) (o email : String),
      email.data.contains '@' = true → (o == "") = false →
      get_user_from_email w fuel email (some o)
        = ((collect_members w fuel o).find? (emailMatches w email)).map
            (fun m => Json.pyStr (m.idx "login")) := by
    intro w fuel o email hat ho
    have hne : email ≠ "" := by
      intro he
      rw [he] at hat
      exact absurd hat (by decide)
    have hemail : (email == "") = false := beq_eq_false_iff_ne.mpr hne
    unfold get_user_from_email
    rw [if_neg (by simp [hemail])]
    rw [if_pos (by simp [orgTruthy, ho])]
    exact scanMembers_eq_find w email (collect_members w fuel (orgStr (some o)))
  refine ⟨key, ?_, ?_, ?_, ?_, ?_, ?_⟩
  · intro w fuel o email m hat ho hfind hlog
    unfold validate_user_input
    rw [if_pos hat, key w fuel o email hat ho, hfind]
    simp [hlog]
  · intro w fuel o email hat ho hfind
    unfold validate_user_input
    rw [if_pos hat, key w fuel o email hat ho, hfind]
    rfl
  · intro w fuel o email m hat ho hfind hlog
    unfold validate_user_input
    rw [if_pos hat, key w fuel o email hat ho, hfind]
    simp [hlog]
  · intro w email m1 rest hm
    simp [scanMembers, hm]
  · intro w fuel u org r hat hmr
    unfold validate_user_input
    rw [if_neg (by rw [hat]; exact Bool.false_ne_true)]
    rw [hmr]
  · intro w fuel u org hat hmr
    unfold validate_user_input
    rw [if_neg (by rw [hat]; exact Bool.false_ne_true)]
    rw [hmr]

/-- Witness for C8: both `alice` (listed first) and `bob` expose the email
`a@b.com` up to case; resolving `a@B.com` finds and returns `alice`
through the resolver and through the wrapper's truthiness re-check;
resolving the plain username `carol` returns it unchanged. -/
theorem C8_identity_resolution_witness :
    get_user_from_email c8World 3 "a@B.com" (some "acme") = some "alice" ∧
    validate_user_input c8World 3 "a@B.com" (some "acme") = some "alice" ∧
    validate_user_input c8World 3 "carol" (some "acme") = some "carol" := by
  refine ⟨?_, ?_, ?_⟩
  · rw [C8_identity_resolution.1 c8World 3 "acme" "a@B.com" (by decide) (by decide)]
    rfl
  · exact C8_identity_resolution.2.1 c8World 3 "acme" "a@B.com"
      (Json.obj [("login", Json.str "alice")]) (by decide) (by decide) rfl (by decide)
  · exact C8_identity_resolution.2.2.2.2.2.1 c8World 3 "carol" (some "acme")
      (Json.obj [("login", Json.str "carol")]) (by decide) rfl

/-- Claim C9, counterexample: a 404 response with an empty body produces
the diagnostic message `No response`, not the claimed default
`Unknown error`, although the server-supplied message field is absent. -/
theorem C9_counterexample :
    make_request c9EmptyW "/repos/acme/x" = Except.error (ReqError.apiError 404 "No response") ∧
    "No response" ≠ "Unknown error" :=
  ⟨rfl, by decide⟩

/-- Claim C9 as amended: on a status outside {200, 201, 204} with a JSON
body, the error carries the status code and the body's `message` field,
defaulting to `Unknown error` when the JSON object has no such field;
with an empty body it carries the status code and the message
`No response`; a connection-level failure yields the error carrying the
exception description; and a non-JSON-parseable body — in particular on
an otherwise successful status — yields the parse error. -/
theorem C9_amended :
    (∀ (w : World) (e : String) (status : Nat) (j : Json),
      w.fetch e = HttpOutcome.resp status (Body.jsonBody j) → success_status status = false →
      make_request w e = Except.error (ReqError.apiError status (json_message j))) ∧
    (∀ (fs : List (String × Json)) (p : String × Json),
      fs.find? (fun q => q.1 == "message") = some p →
      json_message (Json.obj fs) = Json.pyStr p.2) ∧
    (∀ fs : List (String × Json),
      fs.find? (fun q => q.1 == "message") = none →
      json_message (Json.obj fs) = "Unknown error") ∧
    (∀ (w : World) (e : String) (status : Nat),
      w.fetch e = HttpOutcome.resp status Body.empty → success_status status = false →
      make_request w e = Except.error (ReqError.apiError status "No response")) ∧
    (∀ (w : World) (e d : String),
      w.fetch e = HttpOutcome.exn d →
      make_request w e = Except.error (ReqError.requestFailed d)) ∧
    (∀ (w : World) (e : String) (status : Nat),
      w.fetch e = HttpOutcome.resp status Body.junk →
      make_request w e = Except.error ReqError.invalidJson) := by
  refine ⟨?_, ?_, ?_, ?_, ?_, ?_⟩
  · intro w e status j hf hs
    unfold make_request
    rw [hf]
    simp [hs]
  · intro fs p hf
    simp only [json_message]
    rw [hf]
  · intro fs hf
    simp only [json_message]
    rw [hf]
  · intro w e status hf hs
    unfold make_request
    rw [hf]
    simp [hs]
  · intro w e d hf
    unfold make_request
    rw [hf]
  · intro w e status hf
    unfold make_request
    rw [hf]
    cases hs : success_status status <;> simp [hs]

/-- Witness for the amended C9: a 500 with a message yields that message,
a 403 without one yields `Unknown error`. -/
theorem C9_amended_witness :
    make_request c9JsonW "/x" = Except.error (ReqError.apiError 500 "boom") ∧
    make_request c9NoMsgW "/y" = Except.error (ReqError.apiError 403 "Unknown error") := by
  constructor
  · rw [C9_amended.1 c9JsonW "/x" 500 (Json.obj [("message", Json.str "boom")]) rfl rfl]
    rfl
  · rw [C9_amended.1 c9NoMsgW "/y" 403 (Json.obj [("documentation_url", Json.str "x")]) rfl rfl]
    rfl

/-- Claim C10: with no organization supplied (`None` or the empty string),
email resolution returns `None` without consulting the network — the
result is `None` for every oracle, and independent of the oracle and the
page budget; an empty email string likewise returns `None` immediately. -/
theorem C10_no_org_no_lookup :
    (∀ (w : World) (fuel : Nat) (email : String),
      get_user_from_email w fuel email none = none) ∧
    (∀ (w : World) (fuel : Nat) (email : String),
      get_user_from_email w fuel email (some "") = none) ∧
    (∀ (w : World) (fuel : Nat) (org : Option String),
      get_user_from_email w fuel "" org = none) ∧
    (∀ (w w2 : World) (fuel fuel2 : Nat) (email : String) (org : Option String),
      orgTruthy org = false →
      get_user_from_email w fuel email org = get_user_from_email w2 fuel2 email org) := by
  refine ⟨?_, ?_, ?_, ?_⟩
  · intro w fuel email
    unfold get_user_from_email
    cases he : (email == "") <;> simp [he, orgTruthy]
  · intro w fuel email
    unfold get_user_from_email
    cases he : (email == "") <;> simp [he, orgTruthy]
  · intro w fuel org
    rfl
  · intro w w2 fuel fuel2 email org ho
    unfold get_user_from_email
    cases he : (email == "") <;> simp [he, ho]

/-- Witness for C10: two unrelated oracles and page budgets agree (on
`None`) when no organization is supplied. -/
theorem C10_no_org_no_lookup_witness :
    get_user_from_email c1World 3 "x@y.z" none = get_user_from_email c8World 7 "x@y.z" none :=
  C10_no_org_no_lookup.2.2.2 c1World c8World 3 7 "x@y.z" none rfl

end GitManager

